import Mathlib

/-!
Shallow embedding of the per-call session state machine and streaming-response
dispatcher of the voice relay server (`Signal SP Session/server.py`), together
with theorems settling the specification claims about it.

Conventions:
* Python strings are modelled as `String` / `List Char`.
* `str.lower()` is modelled on the ASCII and Latin-1 ranges (the only ranges the
  detector's patterns use); other code points are left unchanged.
* `re` patterns are modelled by executable scanners over `List Char`, with
  declarative (∃-decomposition) characterizations proved against them.
* External collaborators (the OpenAI stream, banking tools, the broadcast sink,
  the websocket) are parameters / output lists: the session task is pure.
-/

namespace Voice

/-! ## Python string primitives -/

/-- Python's whitespace class `\s` restricted to ASCII: space, tab, newline,
carriage return, vertical tab, form feed. -/
def isPyWs (c : Char) : Bool :=
  c = ' ' || c = '\t' || c = '\n' || c = '\r' || c = '\x0b' || c = '\x0c'

/-- Word character for Python's `\w` restricted to ASCII: letters, digits, `_`.
The agent names that ever appear in a routing marker are ASCII. -/
def isWordChar (c : Char) : Bool :=
  c.isAlpha || c.isDigit || c = '_'

/-- `str.lower()` on the ASCII `A`-`Z` range and the Latin-1 uppercase range
`À`-`Þ` (excluding `×`); identity elsewhere. This covers every cased character
appearing in the detector's patterns. -/
def pyLowerChar (c : Char) : Char :=
  if 'A' ≤ c && c ≤ 'Z' then Char.ofNat (c.toNat + 32)
  else if 0xC0 ≤ c.toNat && c.toNat ≤ 0xDE && c.toNat ≠ 0xD7 then Char.ofNat (c.toNat + 32)
  else c

/-- `text.lower()` character by character. -/
def pyLowerList (s : List Char) : List Char := s.map pyLowerChar

/-- `str.strip()`: remove leading and trailing whitespace. -/
def pyStrip (s : List Char) : List Char :=
  ((s.dropWhile isPyWs).reverse.dropWhile isPyWs).reverse

/-- `str.strip()` on `String`. -/
def pyStripStr (s : String) : String := String.mk (pyStrip s.toList)

/-! ## Regex model for the detector patterns

Every pattern in `detect_language_switch` has the shape `(w₁|…|wₖ).*(v₁|…|vₗ)`:
an alternation of literal words, any run of non-newline characters (Python's
`.` does not match `\n` by default), and a second alternation. -/

/-- One detector pattern: the two alternation groups, as literal words. -/
structure Pat where
  groupA : List (List Char)
  groupB : List (List Char)

/-- Does some alternative of `alts` occur as a prefix of `s`? -/
def altPrefix (alts : List (List Char)) (s : List Char) : Bool :=
  alts.any (fun a => a.isPrefixOf s)

/-- Scanner for `.*(B)` anchored at the head of `s`: some alternative of
`bAlts` must occur after a (possibly empty) run of non-newline characters. -/
def tailSearch (bAlts : List (List Char)) : List Char → Bool
  | [] => altPrefix bAlts []
  | c :: rest => altPrefix bAlts (c :: rest) || (c ≠ '\n' && tailSearch bAlts rest)

/-- Match of the whole pattern anchored at the head of `s`. -/
def startMatch (p : Pat) (s : List Char) : Bool :=
  p.groupA.any (fun a => a.isPrefixOf s && tailSearch p.groupB (s.drop a.length))

/-- `re.search` for a detector pattern: a match may start anywhere. -/
def reSearch (p : Pat) : List Char → Bool
  | [] => startMatch p []
  | c :: rest => startMatch p (c :: rest) || reSearch p rest

/-- Declarative meaning of `(A).*(B)`: the text decomposes as
`pre ++ a ++ mid ++ b ++ post` with `a` from the first group, `b` from the
second, and no newline in `mid`. -/
def PatMatches (p : Pat) (t : List Char) : Prop :=
  ∃ pre a mid b post, a ∈ p.groupA ∧ b ∈ p.groupB ∧
    t = pre ++ a ++ mid ++ b ++ post ∧ '\n' ∉ mid

/-! ## LanguageDetector (`detect_language_switch`, server.py lines 765-785) -/

/-- Alternatives of the first group shared by the `(speak|talk|switch|change)`
patterns. -/
def switchWords : List (List Char) :=
  ["speak".toList, "talk".toList, "switch".toList, "change".toList]

/-- The `pt-BR` patterns of `detect_language_switch`. -/
def patPt : List Pat :=
  [⟨switchWords, ["portuguese".toList, "português".toList]⟩,
   ⟨["falar".toList, "fala".toList], ["português".toList, "portuguese".toList]⟩]

/-- The `en-US` patterns of `detect_language_switch`. -/
def patEn : List Pat :=
  [⟨switchWords, ["english".toList, "inglês".toList]⟩,
   ⟨["falar".toList, "fala".toList], ["inglês".toList, "english".toList]⟩]

/-- The `es-US` patterns of `detect_language_switch`. -/
def patEs : List Pat :=
  [⟨switchWords, ["spanish".toList, "espanhol".toList, "español".toList]⟩,
   ⟨["hablar".toList, "habla".toList, "falar".toList, "fala".toList, "cambiar".toList],
    ["espanhol".toList, "español".toList, "spanish".toList]⟩]

/-- The ordered `language_patterns` table (Python dicts preserve insertion
order, so the iteration order is `pt-BR`, `en-US`, `es-US`). -/
def languagePatterns : List (String × List Pat) :=
  [("pt-BR", patPt), ("en-US", patEn), ("es-US", patEs)]

/-- Does any pattern of `ps` match the (already lowercased) text? -/
def langHit (ps : List Pat) (t : List Char) : Bool :=
  ps.any (fun p => reSearch p t)

/-- `detect_language_switch(text, current_lang)`: lowercase the input, return
the first language of the table one of whose patterns matches, else the
current language. -/
def detect_language_switch (text : String) (current_lang : String) : String :=
  match languagePatterns.find? (fun lp => langHit lp.2 (pyLowerList text.toList)) with
  | some lp => lp.1
  | none => current_lang

/-- Declarative version of `langHit`. -/
def LangMatches (ps : List Pat) (t : List Char) : Prop :=
  ∃ p ∈ ps, PatMatches p t

/-! ## RoutingResolver (`process_complete_input`, server.py lines 1205-1236)

`re.search(r"#route_to:(\w+)", text)` finds the first position where the
literal `#route_to:` is followed by at least one word character and captures
the maximal word-character run; `re.sub(r"\s*#route_to:\w+\s*", "", text)`
removes every such leftmost non-overlapping match together with the
surrounding whitespace. -/

/-- The literal marker `#route_to:` (10 characters). -/
def markerL : List Char := "#route_to:".toList

/-- A marker match begins at index `i` of `t`: the literal `#route_to:`
followed by at least one word character. -/
def markerAt (t : List Char) (i : Nat) : Bool :=
  markerL.isPrefixOf (t.drop i) &&
    (match t.drop (i + 10) with
     | d :: _ => isWordChar d
     | [] => false)

/-- The captured group of the first marker match of `t`, scanning left to
right, as `re.search` does. -/
def findMarkerGroup : List Char → Option (List Char)
  | [] => none
  | c :: rest =>
    if markerL.isPrefixOf (c :: rest) &&
        !(((c :: rest).drop 10).takeWhile isWordChar).isEmpty then
      some (((c :: rest).drop 10).takeWhile isWordChar)
    else findMarkerGroup rest

/-- Length of the match of `\s*#route_to:\w+\s*` anchored at the head of `s`,
if any: a maximal whitespace run, the literal marker, a non-empty maximal
word-character run, then a maximal trailing whitespace run. (The leading
`\s*` must end exactly where the literal starts, since `#` is not
whitespace.) -/
def subMatchLen (s : List Char) : Option Nat :=
  let w := (s.takeWhile isPyWs).length
  let t := s.drop w
  if markerL.isPrefixOf t then
    let g := (t.drop 10).takeWhile isWordChar
    if g.isEmpty then none
    else
      let w2 := ((t.drop (10 + g.length)).takeWhile isPyWs).length
      some (w + 10 + g.length + w2)
  else none

/-- Worker for `stripMarkers`, fuelled to keep the recursion structural (each
step consumes at least one character, see `subMatchLen_pos`, so fuel equal to
the length of the text suffices and the `0` case is never hit). -/
def stripMarkersGo : Nat → List Char → List Char
  | _, [] => []
  | 0, s => s
  | fuel + 1, c :: rest =>
    match subMatchLen (c :: rest) with
    | some n => stripMarkersGo fuel ((c :: rest).drop n)
    | none => c :: stripMarkersGo fuel rest

/-- `re.sub(r"\s*#route_to:\w+\s*", "", s)`: scan left to right; at each
position remove the match anchored there if any, otherwise keep the character
and move on. -/
def stripMarkers (s : List Char) : List Char := stripMarkersGo s.length s

/-- The context-transfer system message appended to history on a successful
agent switch. -/
def transferContext (oldAgent newAgent : String) : String :=
  "[CONTEXT: Customer was transferred from " ++ oldAgent ++ " to you (" ++
    newAgent ++ "). Previous conversation context is available.]"

/-- The `#route_to` handling of `process_complete_input` (server.py lines
1205-1236): given the registered agent names, the current active agent and
the (already trimmed) full response text, returns the text destined for
speech, the new active agent if a registered one was requested, and the
history entries appended for this assistant turn. When a marker is found the
cleaned text is the response with every `\s*#route_to:\w+\s*` match removed
and then stripped; with an unknown target the code appends the cleaned text
to history twice (lines 1211 and 1234). -/
def routeResolve (registered : List String) (activeAgent : String)
    (response_text : String) : String × Option String × List (String × String) :=
  match findMarkerGroup response_text.toList with
  | some gl =>
    let g := String.mk gl
    let clean := pyStripStr (String.mk (stripMarkers response_text.toList))
    if registered.contains g then
      (clean, some g, [("assistant", clean), ("system", transferContext activeAgent g)])
    else
      (clean, none, [("assistant", clean), ("assistant", clean)])
  | none => (response_text, none, [("assistant", response_text)])

/-! ## Session data model (`TwilioWebSocketHandler`, server.py lines 890-917)

Only the externally relevant state is modelled; loggers and the dashboard
client set are external collaborators. The websocket is open for the whole
life of the session (it is assigned before any event is routed), so outbound
sends are modelled unconditionally as emitted frames. -/

/-- `latest_prompt_flags` — `{interruptible, preemptible, last}`. -/
structure PromptFlags where
  interruptible : Bool
  preemptible : Bool
  last : Bool
deriving DecidableEq

/-- The per-connection session state. -/
structure Session where
  conversation_sid : Option String
  latest_prompt_flags : PromptFlags
  language : String
  active_agent : String
  chat_history : List (String × String)
  customer_phone : Option String
deriving DecidableEq

/-- The state set up by `TwilioWebSocketHandler.__init__`. -/
def initialSession : Session :=
  { conversation_sid := none
    latest_prompt_flags := { interruptible := false, preemptible := false, last := true }
    language := "pt-BR"
    active_agent := "Olli"
    chat_history := []
    customer_phone := none }

/-- One outbound websocket frame. A text token carries
`{type:"text", token, last, interruptible, preemptible, lang?}`. -/
inductive Frame where
  | text (token : String) (lastFlag interruptible preemptible : Bool) (lang : Option String)
  | language (ttsLanguage transcriptionLanguage : String)
deriving DecidableEq

/-- One fire-and-forget notification to the dashboard broadcast sink. -/
inductive Broadcast where
  | setup
  | prompt
  | interrupt
  | dtmf
  | info
  | debug
  | languageSwitch (fromLang toLang : String)
  | agentSwitch (fromAgent toAgent : String)
  | autoRoute (fromNumber : String)
  | bankingAction
deriving DecidableEq

/-- `send_response(text, partial)` (server.py lines 1264-1295). The Python
parameter is `partial`; the frame's `last` field is `not partial`, which is
the `isFinal` argument here. `interruptible`/`preemptible` are read from
`latest_prompt_flags`; `lang` is attached when the session language is a
non-empty string. -/
def send_response (s : Session) (text : String) (isFinal : Bool) : Frame :=
  Frame.text text isFinal s.latest_prompt_flags.interruptible
    s.latest_prompt_flags.preemptible
    (if s.language ≠ "" then some s.language else none)

/-- Outcome of the completion provider for one call: either the stream ends
normally after the given fragments, or it raises after yielding them. -/
inductive StreamResult where
  | ok (fragments : List String)
  | failAfter (fragments : List String)
deriving DecidableEq

/-- The fixed apology yielded by `LLMClient.get_completion_from_history` when
the provider stream raises (server.py lines 886-888). -/
def streamApology : String := "Desculpe, ocorreu um erro."

/-- The apology sent with `partial=False` by the outer exception handler of
`process_complete_input` (server.py line 1259); unreachable for provider
failures, which are swallowed inside the generator. -/
def outerApology : String := "Desculpe, não consegui processar sua solicitação."

/-- Fragments observed by the consumer of
`get_completion_from_history` (server.py lines 858-888): the provider
fragments, with the fixed apology appended if and when the stream raises.
The generator never retries the provider. -/
def llmFragments : StreamResult → List String
  | .ok fs => fs
  | .failAfter fs => fs ++ [streamApology]

/-- Python truthiness for an optional string. -/
def truthy : Option String → Bool
  | none => false
  | some s => !s.isEmpty

/-- Worker for `pySplit`; accumulates the current word reversed. -/
def pySplitGo : List Char → List Char → List String
  | [], acc => if acc.isEmpty then [] else [String.mk acc.reverse]
  | c :: rest, acc =>
    if isPyWs c then
      if acc.isEmpty then pySplitGo rest [] else String.mk acc.reverse :: pySplitGo rest []
    else pySplitGo rest (c :: acc)

/-- `str.split()` with no arguments: split on whitespace runs, dropping
empty words. -/
def pySplit (s : String) : List String := pySplitGo s.toList []

/-- The word-by-word banking tokens (server.py lines 1170-1175): the first
word as is, each later word with a leading space. -/
def bankingTokens : List String → List String
  | [] => []
  | w :: ws => w :: ws.map (fun x => " " ++ x)

/-- Result of handling one inbound event: the new session state, the frames
written to the relay websocket in order, and the dashboard notifications in
order. -/
structure TurnOutput where
  session : Session
  frames : List Frame
  bcasts : List Broadcast
deriving DecidableEq

/-- The supported-language set of `process_complete_input`. -/
def SUPPORTED_LANGUAGES : List String := ["pt-BR", "es-US", "en-US"]

/-- `process_complete_input(text)` (server.py lines 1103-1262). External
collaborators appear as parameters: `registered` is the agent registry,
`bankingResponse` what `banking_tools.process_user_input` would return (the
tools only run when the stored customer phone is truthy), `stream` the
completion provider's behavior for this turn. -/
def process_complete_input (registered : List String)
    (bankingResponse : Option String) (stream : StreamResult)
    (s : Session) (text : String) : TurnOutput :=
  let new_lang := detect_language_switch text s.language
  let old_lang := s.language
  let s1 := if new_lang ≠ old_lang then { s with language := new_lang } else s
  let langFrames :=
    if new_lang ≠ old_lang ∧ new_lang ∈ SUPPORTED_LANGUAGES
    then [Frame.language new_lang new_lang] else []
  let langBcasts :=
    if new_lang ≠ old_lang then [Broadcast.languageSwitch old_lang new_lang] else []
  match (if truthy s.customer_phone then bankingResponse else none) with
  | some r =>
    let s2 := { s1 with chat_history := s1.chat_history ++ [("user", text), ("assistant", r)] }
    { session := s2
      frames := langFrames ++ (bankingTokens (pySplit r)).map (fun w => send_response s1 w false)
        ++ [send_response s1 "" true]
      bcasts := langBcasts ++ [Broadcast.bankingAction] }
  | none =>
    let s2 := { s1 with chat_history := s1.chat_history ++ [("user", text)] }
    let response_text := pyStripStr (String.join (llmFragments stream))
    let rr := routeResolve registered s2.active_agent response_text
    let s3 := { s2 with
      active_agent := match rr.2.1 with | some g => g | none => s2.active_agent
      chat_history := s2.chat_history ++ rr.2.2 }
    let agentBcasts := match rr.2.1 with
      | some g => [Broadcast.agentSwitch s2.active_agent g]
      | none => []
    { session := s3
      frames := langFrames ++
        (if pyStripStr rr.1 ≠ "" then [send_response s3 rr.1 false] else []) ++
        [send_response s3 "" true]
      bcasts := langBcasts ++ agentBcasts }

/-- Worker for `removeAll`, fuelled to keep the recursion structural (a
non-empty pattern consumes at least one character per removal). -/
def removeAllGo (pat : List Char) : Nat → List Char → List Char
  | _, [] => []
  | 0, s => s
  | fuel + 1, c :: rest =>
    if pat.isPrefixOf (c :: rest) then removeAllGo pat fuel ((c :: rest).drop pat.length)
    else c :: removeAllGo pat fuel rest

/-- `s.replace(pat, "")` for a non-empty pattern: remove every leftmost
non-overlapping occurrence. -/
def removeAll (pat s : List Char) : List Char := removeAllGo pat s.length s

/-- `handle_setup(data)` (server.py lines 1005-1065). -/
def handle_setup (s : Session) (callSid : Option String) (fromNumber : String) : TurnOutput :=
  let isWhatsapp := "whatsapp:".toList.isPrefixOf fromNumber.toList
  { session := { s with
      conversation_sid := callSid
      language := "pt-BR"
      customer_phone := some (if isWhatsapp then
          String.mk (removeAll "whatsapp:".toList fromNumber.toList)
        else fromNumber)
      active_agent := if isWhatsapp then "Max" else "Olli" }
    frames := [Frame.language "pt-BR" "pt-BR"]
    bcasts := [Broadcast.setup] ++ (if isWhatsapp then [Broadcast.autoRoute fromNumber] else [])
      ++ [Broadcast.setup] }

/-- `handle_prompt(data)` (server.py lines 1067-1085): store the flags
(absent fields default to `True`), run a completion turn when the trimmed
text is non-empty, then notify the sink. -/
def handle_prompt (registered : List String) (bankingResponse : Option String)
    (stream : StreamResult) (s : Session) (voicePrompt : Option String)
    (interruptible preemptible last : Option Bool) : TurnOutput :=
  let flags : PromptFlags :=
    { interruptible := interruptible.getD true
      preemptible := preemptible.getD true
      last := last.getD true }
  let s1 := { s with latest_prompt_flags := flags }
  let turn :=
    if pyStripStr (voicePrompt.getD "") ≠ "" then
      process_complete_input registered bankingResponse stream s1 (voicePrompt.getD "")
    else { session := s1, frames := [], bcasts := [] }
  { turn with bcasts := turn.bcasts ++ [Broadcast.prompt] }

/-- `handle_dtmf(data)` (server.py lines 1091-1096): a truthy digit starts a
turn on the synthetic text `"User pressed <digit>"`. -/
def handle_dtmf (registered : List String) (bankingResponse : Option String)
    (stream : StreamResult) (s : Session) (digit : Option String) : TurnOutput :=
  match digit with
  | some d =>
    if d ≠ "" then
      let turn := process_complete_input registered bankingResponse stream s ("User pressed " ++ d)
      { turn with bcasts := turn.bcasts ++ [Broadcast.dtmf] }
    else { session := s, frames := [], bcasts := [Broadcast.dtmf] }
  | none => { session := s, frames := [], bcasts := [Broadcast.dtmf] }

/-- One inbound relay event, discriminated by its `event`/`type` string;
`other` stands for any unrecognized event type (server.py line 1002). -/
inductive Event where
  | setup (callSid : Option String) (fromNumber : String)
  | prompt (voicePrompt : Option String) (interruptible preemptible last : Option Bool)
  | interrupt
  | dtmf (digit : Option String)
  | info
  | debug
  | other (name : String)

/-- One inbound websocket message as seen by `route_message`: undecodable
JSON, JSON without an `event`/`type` discriminator, or a decoded event. -/
inductive Inbound where
  | invalidJson
  | missingEventType
  | event (e : Event)

/-- `handle_conversation_relay_event(data)` (server.py lines 985-1101
together with the per-event handlers). `interrupt` only logs and notifies
the sink; `info`/`debug` are pure observation; an unrecognized type is
logged and dropped. -/
def handle_conversation_relay_event (registered : List String)
    (bankingResponse : Option String) (stream : StreamResult)
    (s : Session) : Event → TurnOutput
  | .setup callSid fromNumber => handle_setup s callSid fromNumber
  | .prompt vp i p l => handle_prompt registered bankingResponse stream s vp i p l
  | .interrupt => { session := s, frames := [], bcasts := [Broadcast.interrupt] }
  | .dtmf d => handle_dtmf registered bankingResponse stream s d
  | .info => { session := s, frames := [], bcasts := [Broadcast.info] }
  | .debug => { session := s, frames := [], bcasts := [Broadcast.debug] }
  | .other _ => { session := s, frames := [], bcasts := [] }

/-- `route_message(message)` (server.py lines 971-983): invalid JSON and a
missing discriminator are logged and dropped; every raised exception is
caught, so no failure escapes the dispatcher. -/
def route_message (registered : List String) (bankingResponse : Option String)
    (stream : StreamResult) (s : Session) : Inbound → TurnOutput
  | .invalidJson => { session := s, frames := [], bcasts := [] }
  | .missingEventType => { session := s, frames := [], bcasts := [] }
  | .event e => handle_conversation_relay_event registered bankingResponse stream s e

/-- The agent names registered at startup (server.py lines 667-699). -/
def defaultAgents : List String := ["Olli", "Sunny", "Max", "Io"]

/-- A streamed content token: a text frame with `last = false`
(`partial=True` in the Python sources). -/
def nonFinalToken : Frame → Bool
  | .text _ lastFlag _ _ _ => !lastFlag
  | .language _ _ => false

/-- A text frame carrying one of the two fixed apologies with `last = true`. -/
def apologyFinalToken : Frame → Bool
  | .text tok lastFlag _ _ _ => (tok = streamApology || tok = outerApology) && lastFlag
  | .language _ _ => false

/-- A session as it stands mid-call: identified, with a stored customer
phone, otherwise in the initial configuration. Used by concrete runs. -/
def demoSession : Session :=
  { initialSession with conversation_sid := some "CA123", customer_phone := some "+5511999990000" }

/-! ## Theorems -/

theorem tailSearch_iff (bAlts : List (List Char)) (s : List Char) :
    tailSearch bAlts s = true ↔
      ∃ mid b post, b ∈ bAlts ∧ s = mid ++ b ++ post ∧ '\n' ∉ mid := by
  induction s with
  | nil =>
    simp only [tailSearch, altPrefix, List.any_eq_true]
    constructor
    · rintro ⟨b, hb, hpre⟩
      rw [List.isPrefixOf_iff_prefix] at hpre
      rcases hpre with ⟨post, hpost⟩
      rcases List.append_eq_nil.mp hpost with ⟨hb0, hp0⟩
      exact ⟨[], b, post, hb, by simp [hb0, hp0], by simp⟩
    · rintro ⟨mid, b, post, hb, heq, -⟩
      have h0 : mid ++ (b ++ post) = [] := by simpa using heq.symm
      rcases List.append_eq_nil.mp h0 with ⟨hm0, hbp⟩
      rcases List.append_eq_nil.mp hbp with ⟨hb0, hp0⟩
      refine ⟨b, hb, ?_⟩
      rw [List.isPrefixOf_iff_prefix]
      exact ⟨[], by simp [hb0]⟩
  | cons c rest ih =>
    simp only [tailSearch, Bool.or_eq_true, Bool.and_eq_true]
    constructor
    · rintro (h | ⟨hc, hrest⟩)
      · simp only [altPrefix, List.any_eq_true] at h
        rcases h with ⟨b, hb, hpre⟩
        rw [List.isPrefixOf_iff_prefix] at hpre
        rcases hpre with ⟨post, hpost⟩
        exact ⟨[], b, post, hb, by simp [← hpost], by simp⟩
      · rcases ih.mp hrest with ⟨mid, b, post, hb, heq, hnl⟩
        refine ⟨c :: mid, b, post, hb, by simp [heq], ?_⟩
        simp only [List.mem_cons, not_or]
        refine ⟨?_, hnl⟩
        intro h
        rw [← h] at hc
        simp at hc
    · rintro ⟨mid, b, post, hb, heq, hnl⟩
      cases mid with
      | nil =>
        left
        simp only [altPrefix, List.any_eq_true]
        refine ⟨b, hb, ?_⟩
        rw [List.isPrefixOf_iff_prefix]
        exact ⟨post, by simpa using heq.symm⟩
      | cons m ms =>
        right
        simp only [List.cons_append, List.cons.injEq] at heq
        rcases heq with ⟨hcm, hrest⟩
        constructor
        · simp only [List.mem_cons, not_or] at hnl
          subst hcm
          simpa using fun h => hnl.1 h.symm
        · exact ih.mpr ⟨ms, b, post, hb, hrest, by
            simp only [List.mem_cons, not_or] at hnl; exact hnl.2⟩

theorem startMatch_iff (p : Pat) (s : List Char) :
    startMatch p s = true ↔
      ∃ a mid b post, a ∈ p.groupA ∧ b ∈ p.groupB ∧
        s = a ++ mid ++ b ++ post ∧ '\n' ∉ mid := by
  simp only [startMatch, List.any_eq_true, Bool.and_eq_true]
  constructor
  · rintro ⟨a, ha, hpre, htail⟩
    rw [List.isPrefixOf_iff_prefix] at hpre
    rcases hpre with ⟨u, hu⟩
    have hdrop : s.drop a.length = u := by
      rw [← hu]; simp
    rw [hdrop] at htail
    rcases (tailSearch_iff _ _).mp htail with ⟨mid, b, post, hb, hequ, hnl⟩
    exact ⟨a, mid, b, post, ha, hb, by rw [← hu, hequ]; simp, hnl⟩
  · rintro ⟨a, mid, b, post, ha, hb, heq, hnl⟩
    refine ⟨a, ha, ?_, ?_⟩
    · rw [List.isPrefixOf_iff_prefix]
      exact ⟨mid ++ b ++ post, by simp [heq]⟩
    · have hdrop : s.drop a.length = mid ++ b ++ post := by
        rw [heq]; simp
      rw [hdrop]
      exact (tailSearch_iff _ _).mpr ⟨mid, b, post, hb, by simp, hnl⟩

theorem reSearch_iff (p : Pat) (t : List Char) :
    reSearch p t = true ↔ PatMatches p t := by
  unfold PatMatches
  induction t with
  | nil =>
    simp only [reSearch]
    rw [startMatch_iff]
    constructor
    · rintro ⟨a, mid, b, post, ha, hb, heq, hnl⟩
      exact ⟨[], a, mid, b, post, ha, hb, by simpa using heq, hnl⟩
    · rintro ⟨pre, a, mid, b, post, ha, hb, heq, hnl⟩
      have hpre : pre = [] := by
        cases pre with
        | nil => rfl
        | cons x xs => simp at heq
      exact ⟨a, mid, b, post, ha, hb, by simpa [hpre] using heq, hnl⟩
  | cons c rest ih =>
    simp only [reSearch, Bool.or_eq_true]
    constructor
    · rintro (h | h)
      · rcases (startMatch_iff _ _).mp h with ⟨a, mid, b, post, ha, hb, heq, hnl⟩
        exact ⟨[], a, mid, b, post, ha, hb, by simpa using heq, hnl⟩
      · rcases ih.mp h with ⟨pre, a, mid, b, post, ha, hb, heq, hnl⟩
        exact ⟨c :: pre, a, mid, b, post, ha, hb, by simp [heq], hnl⟩
    · rintro ⟨pre, a, mid, b, post, ha, hb, heq, hnl⟩
      cases pre with
      | nil =>
        left
        exact (startMatch_iff _ _).mpr ⟨a, mid, b, post, ha, hb, by simpa using heq, hnl⟩
      | cons x xs =>
        right
        simp only [List.cons_append, List.cons.injEq] at heq
        exact ih.mpr ⟨xs, a, mid, b, post, ha, hb, heq.2, hnl⟩

theorem langHit_iff (ps : List Pat) (t : List Char) :
    langHit ps t = true ↔ LangMatches ps t := by
  simp [langHit, LangMatches, List.any_eq_true, reSearch_iff]

/-- `detect_language_switch` as nested first-match tests, in table order. -/
theorem detect_language_switch_eq (text cur : String) :
    detect_language_switch text cur =
      (if langHit patPt (pyLowerList text.toList) then "pt-BR"
       else if langHit patEn (pyLowerList text.toList) then "en-US"
       else if langHit patEs (pyLowerList text.toList) then "es-US"
       else cur) := by
  unfold detect_language_switch languagePatterns
  cases h1 : langHit patPt (pyLowerList text.toList) <;>
    cases h2 : langHit patEn (pyLowerList text.toList) <;>
      cases h3 : langHit patEs (pyLowerList text.toList) <;>
        (simp only [String.toList] at h1 h2 h3 ⊢; simp [List.find?, h1, h2, h3])

/-- C7: the language detector lowercases the input and tests the ordered
table `pt-BR`, `en-US`, `es-US`; the first language with any matching pattern
is returned regardless of the current tag, and when no pattern matches the
current tag is returned unchanged. -/
theorem c7_detector_first_match_in_order (text cur : String) :
    (LangMatches patPt (pyLowerList text.toList) →
      ∀ cur₂ : String, detect_language_switch text cur₂ = "pt-BR") ∧
    (¬ LangMatches patPt (pyLowerList text.toList) →
      LangMatches patEn (pyLowerList text.toList) →
      ∀ cur₂ : String, detect_language_switch text cur₂ = "en-US") ∧
    (¬ LangMatches patPt (pyLowerList text.toList) →
      ¬ LangMatches patEn (pyLowerList text.toList) →
      LangMatches patEs (pyLowerList text.toList) →
      ∀ cur₂ : String, detect_language_switch text cur₂ = "es-US") ∧
    (¬ LangMatches patPt (pyLowerList text.toList) →
      ¬ LangMatches patEn (pyLowerList text.toList) →
      ¬ LangMatches patEs (pyLowerList text.toList) →
      detect_language_switch text cur = cur) := by
  simp only [← langHit_iff, Bool.not_eq_true]
  refine ⟨fun h1 cur₂ => ?_, fun h1 h2 cur₂ => ?_, fun h1 h2 h3 cur₂ => ?_,
    fun h1 h2 h3 => ?_⟩ <;>
    rw [detect_language_switch_eq] <;> simp_all [String.toList]

/-- Witness for C7 at a concrete input: "fala português" selects `pt-BR`
whatever the current tag was. -/
theorem c7_witness :
    detect_language_switch "fala português" "en-US" = "pt-BR" :=
  (c7_detector_first_match_in_order "fala português" "en-US").1
    ((langHit_iff patPt (pyLowerList "fala português".toList)).mp (by decide)) "en-US"

/-- C10: the detector is idempotent in its language argument. -/
theorem c10_detector_idempotent (text cur : String) :
    detect_language_switch text (detect_language_switch text cur) =
      detect_language_switch text cur := by
  rw [detect_language_switch_eq text cur]
  cases h1 : langHit patPt (pyLowerList text.toList) <;>
    cases h2 : langHit patEn (pyLowerList text.toList) <;>
      cases h3 : langHit patEs (pyLowerList text.toList) <;>
        simp_all [detect_language_switch_eq, String.toList]

theorem findMarkerGroup_cons (c : Char) (rest : List Char) :
    findMarkerGroup (c :: rest) =
      if markerL.isPrefixOf (c :: rest) &&
          !(((c :: rest).drop 10).takeWhile isWordChar).isEmpty then
        some (((c :: rest).drop 10).takeWhile isWordChar)
      else findMarkerGroup rest := rfl

theorem markerAt_zero (t : List Char) :
    markerAt t 0 =
      (markerL.isPrefixOf t && !((t.drop 10).takeWhile isWordChar).isEmpty) := by
  unfold markerAt
  rw [List.drop_zero, Nat.zero_add]
  cases h : t.drop 10 with
  | nil => simp
  | cons d tl => cases hw : isWordChar d <;> simp [List.takeWhile_cons, hw]

theorem markerAt_succ (c : Char) (rest : List Char) (j : Nat) :
    markerAt (c :: rest) (j + 1) = markerAt rest j := by
  unfold markerAt
  have e1 : (c :: rest).drop (j + 1) = rest.drop j := rfl
  have e2 : (c :: rest).drop (j + 1 + 10) = rest.drop (j + 10) := by
    have h : j + 1 + 10 = (j + 10) + 1 := by omega
    rw [h]; rfl
  rw [e1, e2]

/-- `findMarkerGroup` returns `none` exactly when no marker match starts
anywhere in the text. -/
theorem findMarkerGroup_eq_none_iff (t : List Char) :
    findMarkerGroup t = none ↔ ∀ i, markerAt t i = false := by
  induction t with
  | nil =>
    constructor
    · intro _ i
      simp [markerAt, List.drop_nil]
    · intro _; rfl
  | cons c rest ih =>
    cases hc : (markerL.isPrefixOf (c :: rest) &&
        !(((c :: rest).drop 10).takeWhile isWordChar).isEmpty) with
    | true =>
      constructor
      · intro h
        rw [findMarkerGroup_cons, hc] at h
        simp at h
      · intro h
        have h0 := h 0
        rw [markerAt_zero, hc] at h0
        exact absurd h0 (by simp)
    | false =>
      have h0 : markerAt (c :: rest) 0 = false := by rw [markerAt_zero]; exact hc
      constructor
      · intro h i
        cases i with
        | zero => exact h0
        | succ j =>
          rw [markerAt_succ]
          have hr : findMarkerGroup rest = none := by
            rw [findMarkerGroup_cons, hc] at h
            simpa using h
          exact (ih.mp hr) j
      · intro h
        have hr : findMarkerGroup rest = none :=
          ih.mpr (fun j => by rw [← markerAt_succ c rest j]; exact h (j + 1))
        rw [findMarkerGroup_cons, hc]
        simpa using hr

theorem takeWhile_word_append (g post : List Char)
    (hg : ∀ c ∈ g, isWordChar c = true)
    (hpost : ∀ d, post.head? = some d → isWordChar d = false) :
    (g ++ post).takeWhile isWordChar = g := by
  induction g with
  | nil =>
    cases post with
    | nil => rfl
    | cons d tl => simp [List.takeWhile_cons, hpost d rfl]
  | cons c g' ih =>
    rw [List.cons_append, List.takeWhile_cons, hg c (by simp)]
    simp only [if_true]
    rw [ih (fun x hx => hg x (by simp [hx]))]

/-- `findMarkerGroup` honors the first marker: if the text decomposes around
a marker whose group `g` is a maximal non-empty word-character run and no
marker match starts earlier, the captured group is `g`. -/
theorem findMarkerGroup_first (pre g post : List Char)
    (hg : g ≠ []) (hgw : ∀ c ∈ g, isWordChar c = true)
    (hpost : ∀ d, post.head? = some d → isWordChar d = false)
    (hfirst : ∀ j, j < pre.length → markerAt (pre ++ markerL ++ g ++ post) j = false) :
    findMarkerGroup (pre ++ markerL ++ g ++ post) = some g := by
  induction pre with
  | nil =>
    simp only [List.nil_append]
    have hexp : markerL ++ g ++ post = '#' :: ("route_to:".toList ++ (g ++ post)) := by
      simp [markerL]
    have hpref : markerL.isPrefixOf (markerL ++ g ++ post) = true := by
      rw [List.isPrefixOf_iff_prefix]
      exact ⟨g ++ post, by simp⟩
    have hdrop : (markerL ++ g ++ post).drop 10 = g ++ post := by
      have hlen : markerL.length = 10 := by decide
      rw [List.append_assoc, ← hlen, List.drop_left]
    have htake : ((markerL ++ g ++ post).drop 10).takeWhile isWordChar = g := by
      rw [hdrop]; exact takeWhile_word_append g post hgw hpost
    rw [hexp, findMarkerGroup_cons, ← hexp, hpref, htake]
    simp [hg]
  | cons p pre' ih =>
    have h0 := hfirst 0 (by simp)
    simp only [List.cons_append] at h0 ⊢
    rw [findMarkerGroup_cons]
    rw [markerAt_zero] at h0
    rw [h0]
    simp only [if_false, Bool.false_eq_true]
    exact ih (fun j hj => by
      have h := hfirst (j + 1) (by simpa using Nat.succ_lt_succ hj)
      simp only [List.cons_append] at h
      rwa [markerAt_succ] at h)

theorem subMatchLen_pos (s : List Char) (n : Nat) (h : subMatchLen s = some n) :
    10 < n := by
  simp only [subMatchLen] at h
  split at h
  · split at h
    · exact absurd h (by simp)
    · simp only [Option.some.injEq] at h
      have hg : ¬ (((s.drop (s.takeWhile isPyWs).length).drop 10).takeWhile isWordChar).isEmpty
          = true := by assumption
      rw [List.isEmpty_iff] at hg
      have : 0 < (((s.drop (s.takeWhile isPyWs).length).drop 10).takeWhile isWordChar).length :=
        List.length_pos.mpr hg
      omega
  · exact absurd h (by simp)

theorem subMatchLen_nil : subMatchLen [] = none := by decide

/-! ## Helper lemmas and predicates for the claim theorems -/

theorem dropWhile_eq_self_of_prefix {p : Char → Bool} {v u : List Char}
    (hvu : v <+: u) (hu : u.dropWhile p = u) : v.dropWhile p = v := by
  rw [List.dropWhile_eq_self_iff] at hu ⊢
  intro hl
  rcases hvu with ⟨t, rfl⟩
  have hl' : 0 < (v ++ t).length := by
    rw [List.length_append]; omega
  have hget : (v ++ t).get ⟨0, hl'⟩ = v.get ⟨0, hl⟩ := by
    cases v with
    | nil => simp at hl
    | cons c v' => rfl
  have hres := hu hl'
  rw [hget] at hres
  exact hres

theorem pyStrip_eq_rdropWhile (s : List Char) :
    pyStrip s = List.rdropWhile isPyWs (List.dropWhile isPyWs s) := rfl

theorem pyStrip_idem (s : List Char) : pyStrip (pyStrip s) = pyStrip s := by
  rw [pyStrip_eq_rdropWhile, pyStrip_eq_rdropWhile]
  have h1 : List.dropWhile isPyWs (List.rdropWhile isPyWs (List.dropWhile isPyWs s)) =
      List.rdropWhile isPyWs (List.dropWhile isPyWs s) :=
    dropWhile_eq_self_of_prefix (List.rdropWhile_prefix _ _)
      (List.dropWhile_idempotent isPyWs s)
  rw [h1, List.rdropWhile_idempotent]

theorem pyStripStr_idem (s : String) : pyStripStr (pyStripStr s) = pyStripStr s :=
  congrArg String.mk (pyStrip_idem s.toList)

/-- Full description of an LLM turn whose (trimmed) response contains no
routing marker: the language step runs, the user and assistant messages are
appended to history, and the frames are the optional language-change message,
then a single `last=false` content token carrying the whole trimmed response
(when non-empty), then the empty `last=true` final marker. -/
theorem process_llm_no_marker (registered : List String) (stream : StreamResult)
    (s : Session) (text : String)
    (hmark : findMarkerGroup (pyStripStr (String.join (llmFragments stream))).toList = none) :
    process_complete_input registered none stream s text =
      { session := { s with
          language := detect_language_switch text s.language
          chat_history := s.chat_history ++
            [("user", text),
             ("assistant", pyStripStr (String.join (llmFragments stream)))] }
        frames :=
          (if detect_language_switch text s.language ≠ s.language ∧
              detect_language_switch text s.language ∈ SUPPORTED_LANGUAGES then
            [Frame.language (detect_language_switch text s.language)
              (detect_language_switch text s.language)]
          else []) ++
          (if pyStripStr (String.join (llmFragments stream)) ≠ "" then
            [Frame.text (pyStripStr (String.join (llmFragments stream))) false
              s.latest_prompt_flags.interruptible s.latest_prompt_flags.preemptible
              (if detect_language_switch text s.language ≠ "" then
                some (detect_language_switch text s.language) else none)]
          else []) ++
          [Frame.text "" true s.latest_prompt_flags.interruptible
            s.latest_prompt_flags.preemptible
            (if detect_language_switch text s.language ≠ "" then
              some (detect_language_switch text s.language) else none)]
        bcasts :=
          if detect_language_switch text s.language ≠ s.language then
            [Broadcast.languageSwitch s.language (detect_language_switch text s.language)]
          else [] } := by
  unfold process_complete_input
  simp only [ite_self]
  unfold routeResolve
  rw [hmark]
  simp only [pyStripStr_idem, send_response]
  by_cases h : detect_language_switch text s.language ≠ s.language
  · simp [h]
  · push_neg at h
    simp [h, List.append_assoc]

/-- A completion turn never touches the stored prompt flags. -/
theorem process_session_flags (registered : List String) (br : Option String)
    (stream : StreamResult) (s : Session) (text : String) :
    (process_complete_input registered br stream s text).session.latest_prompt_flags =
      s.latest_prompt_flags := by
  unfold process_complete_input
  cases hbk : (if truthy s.customer_phone then br else none) <;>
    by_cases hl : detect_language_switch text s.language ≠ s.language <;>
      simp [hbk, hl]

/-- Every text frame of a completion turn carries the stored `interruptible`
and `preemptible` flags, and only the empty final marker has `last = true`. -/
theorem process_frames_shape (registered : List String) (br : Option String)
    (stream : StreamResult) (s : Session) (text : String) :
    ∀ f ∈ (process_complete_input registered br stream s text).frames,
      ∀ tok lf fi fp lg, f = Frame.text tok lf fi fp lg →
        fi = s.latest_prompt_flags.interruptible ∧
        fp = s.latest_prompt_flags.preemptible ∧
        (lf = true → tok = "") := by
  intro f hf tok lf fi fp lg heq
  subst heq
  unfold process_complete_input at hf
  cases hbk : (if truthy s.customer_phone then br else none) with
  | none =>
    simp only [hbk] at hf
    simp only [List.mem_append, List.mem_singleton, List.mem_map,
      List.mem_ite_nil_right, List.mem_ite_nil_left, send_response,
      apply_ite Session.latest_prompt_flags, ite_self, Frame.text.injEq] at hf
    rcases hf with (⟨-, hbad⟩ | ⟨-, -, hlf, hfi, hfp, -⟩) | ⟨htok, -, hfi, hfp, -⟩
    · exact absurd hbad (by simp)
    · refine ⟨hfi, hfp, fun h => ?_⟩
      rw [hlf] at h
      exact absurd h (by simp)
    · exact ⟨hfi, hfp, fun _ => htok⟩
  | some r =>
    simp only [hbk] at hf
    simp only [List.mem_append, List.mem_singleton, List.mem_map,
      List.mem_ite_nil_right, List.mem_ite_nil_left, send_response,
      apply_ite Session.latest_prompt_flags, ite_self, Frame.text.injEq] at hf
    rcases hf with (⟨-, hbad⟩ | ⟨w, -, -, hlf, hfi, hfp, -⟩) | ⟨htok, -, hfi, hfp, -⟩
    · exact absurd hbad (by simp)
    · refine ⟨hfi.symm, hfp.symm, fun h => ?_⟩
      rw [← hlf] at h
      exact absurd h (by simp)
    · exact ⟨hfi, hfp, fun _ => htok⟩

/-! ## Claim theorems -/

/-- C4: an `interrupt` event received while the session is active changes no
session field (id, language, agent, prompt flags, history and phone are all
those of the input state), emits no outbound frame — hence never retracts an
already-issued token — and only notifies the broadcast sink. The handler has
no in-flight turn bookkeeping to clear: turns complete within their own event
dispatch, so the idle sub-state is re-entered with the state untouched. -/
theorem c4_interrupt_frame_effect (registered : List String)
    (bankingResponse : Option String) (stream : StreamResult) (s : Session) :
    route_message registered bankingResponse stream s (.event .interrupt) =
      { session := s, frames := [], bcasts := [Broadcast.interrupt] } := rfl

/-- C8: a `setup` event routes the active agent to the wealth-management
agent "Max" exactly when the `from` field starts with the WhatsApp prefix and
to the default generalist "Olli" otherwise; in both cases the session language
is reset to the default locale `pt-BR`. -/
theorem c8_setup_channel_routing (s : Session) (callSid : Option String)
    (fromNumber : String) :
    (handle_setup s callSid fromNumber).session.active_agent =
      (if "whatsapp:".toList.isPrefixOf fromNumber.toList then "Max" else "Olli") ∧
    (handle_setup s callSid fromNumber).session.language = "pt-BR" :=
  ⟨rfl, rfl⟩

/-- C9: an inbound message that is invalid JSON, lacks an `event`/`type`
discriminator, or carries an unrecognized event type is discarded: the
session state is unchanged, no outbound frame and no broadcast is produced
(the dispatcher is a total function, so no exception escapes), and any
subsequent message is processed exactly as if the bad one had never
arrived. -/
theorem c9_malformed_inbound_discarded (registered : List String)
    (bankingResponse : Option String) (stream : StreamResult) (s : Session)
    (m : Inbound)
    (h : m = .invalidJson ∨ m = .missingEventType ∨ ∃ name, m = .event (.other name)) :
    route_message registered bankingResponse stream s m =
      { session := s, frames := [], bcasts := [] } ∧
    ∀ (registered₂ : List String) (br₂ : Option String) (stream₂ : StreamResult)
      (m₂ : Inbound),
      route_message registered₂ br₂ stream₂
        (route_message registered bankingResponse stream s m).session m₂ =
      route_message registered₂ br₂ stream₂ s m₂ := by
  rcases h with h | h | ⟨name, h⟩ <;> subst h <;> exact ⟨rfl, fun _ _ _ _ => rfl⟩

/-- Witness for C9 at a concrete unrecognized event type. -/
theorem c9_witness :
    route_message defaultAgents none (.ok []) demoSession
        (.event (.other "transcription-started")) =
      { session := demoSession, frames := [], bcasts := [] } :=
  (c9_malformed_inbound_discarded defaultAgents none (.ok []) demoSession
    (.event (.other "transcription-started"))
    (Or.inr (Or.inr ⟨"transcription-started", rfl⟩))).1

/-- C1 (amended): for a turn whose completion stream ends normally with
fragments `fs` and whose trimmed concatenation is non-empty and free of
routing markers, the session does not forward the fragments individually: it
accumulates them and emits exactly one `last=false` content token whose text
is the trimmed concatenation of all fragments (stream order preserved inside
the single token), followed by one empty `last=true` final token.
Per-fragment forwarding exists only in the legacy `server-backup.py`
variant. -/
theorem c1_stream_batched_single_token (registered : List String)
    (fs : List String) (s : Session) (text : String)
    (hmark : findMarkerGroup (pyStripStr (String.join fs)).toList = none)
    (hne : pyStripStr (String.join fs) ≠ "") :
    (process_complete_input registered none (.ok fs) s text).frames =
      (if detect_language_switch text s.language ≠ s.language ∧
          detect_language_switch text s.language ∈ SUPPORTED_LANGUAGES then
        [Frame.language (detect_language_switch text s.language)
          (detect_language_switch text s.language)]
      else []) ++
      [Frame.text (pyStripStr (String.join fs)) false
        s.latest_prompt_flags.interruptible s.latest_prompt_flags.preemptible
        (if detect_language_switch text s.language ≠ "" then
          some (detect_language_switch text s.language) else none),
       Frame.text "" true s.latest_prompt_flags.interruptible
        s.latest_prompt_flags.preemptible
        (if detect_language_switch text s.language ≠ "" then
          some (detect_language_switch text s.language) else none)] := by
  have h := process_llm_no_marker registered (.ok fs) s text hmark
  rw [h]
  simp [hne, llmFragments]

/-- Witness for C1 (amended) on the 3-fragment stream of the claim. -/
theorem c1_witness :
    pyStripStr (String.join ["Hel", "lo ", "world"]) ≠ "" ∧
    (process_complete_input defaultAgents none (.ok ["Hel", "lo ", "world"])
        demoSession "hi there").frames =
      [Frame.text "Hello world" false false false (some "pt-BR"),
       Frame.text "" true false false (some "pt-BR")] := by
  refine ⟨by decide, ?_⟩
  have h := c1_stream_batched_single_token defaultAgents ["Hel", "lo ", "world"]
    demoSession "hi there" (by decide) (by decide)
  rw [h]
  decide

/-- Frames of any LLM-branch turn (no banking response), with no assumption
on the stream or its text: the optional language-change frame, then the
`routeResolve` spoken text as a single `last=false` content token when
non-empty, then the empty `last=true` final marker. -/
theorem process_llm_turn_frames (registered : List String) (stream : StreamResult)
    (s : Session) (text : String) :
    (process_complete_input registered none stream s text).frames =
      (if detect_language_switch text s.language ≠ s.language ∧
          detect_language_switch text s.language ∈ SUPPORTED_LANGUAGES then
        [Frame.language (detect_language_switch text s.language)
          (detect_language_switch text s.language)]
      else []) ++
      (if pyStripStr (routeResolve registered s.active_agent
          (pyStripStr (String.join (llmFragments stream)))).1 ≠ "" then
        [Frame.text (routeResolve registered s.active_agent
            (pyStripStr (String.join (llmFragments stream)))).1 false
          s.latest_prompt_flags.interruptible s.latest_prompt_flags.preemptible
          (if detect_language_switch text s.language ≠ "" then
            some (detect_language_switch text s.language) else none)]
      else []) ++
      [Frame.text "" true s.latest_prompt_flags.interruptible
        s.latest_prompt_flags.preemptible
        (if detect_language_switch text s.language ≠ "" then
          some (detect_language_switch text s.language) else none)] := by
  unfold process_complete_input
  simp only [ite_self, send_response]
  by_cases h : detect_language_switch text s.language ≠ s.language
  · simp [h]
  · push_neg at h
    simp [h, List.append_assoc]

/-- C3 (amended): when the completion stream fails at any point, the LLM
wrapper yields one fixed apology fragment after the already-yielded fragments
and ends the stream; the turn then proceeds exactly like a successful turn
over that fragment sequence — the trimmed accumulated text, apology included
and with any routing markers processed and stripped as on success, is sent as
the single `last=false` content token when non-empty, followed by the empty
`last=true` final marker; no outbound token carries an apology with
`last=true`, the provider generator is consumed once per turn with no retry,
and the resulting session is an ordinary post-turn state usable for
subsequent turns. -/
theorem c3_stream_failure_handling (registered : List String)
    (fs : List String) (s : Session) (text : String) :
    llmFragments (.failAfter fs) = fs ++ [streamApology] ∧
    (process_complete_input registered none (.failAfter fs) s text).frames =
      (if detect_language_switch text s.language ≠ s.language ∧
          detect_language_switch text s.language ∈ SUPPORTED_LANGUAGES then
        [Frame.language (detect_language_switch text s.language)
          (detect_language_switch text s.language)]
      else []) ++
      (if pyStripStr (routeResolve registered s.active_agent
          (pyStripStr (String.join (fs ++ [streamApology])))).1 ≠ "" then
        [Frame.text (routeResolve registered s.active_agent
            (pyStripStr (String.join (fs ++ [streamApology])))).1 false
          s.latest_prompt_flags.interruptible s.latest_prompt_flags.preemptible
          (if detect_language_switch text s.language ≠ "" then
            some (detect_language_switch text s.language) else none)]
      else []) ++
      [Frame.text "" true s.latest_prompt_flags.interruptible
        s.latest_prompt_flags.preemptible
        (if detect_language_switch text s.language ≠ "" then
          some (detect_language_switch text s.language) else none)] ∧
    (process_complete_input registered none (.failAfter fs) s text).frames.countP
      apologyFinalToken = 0 := by
  have h := process_llm_turn_frames registered (.failAfter fs) s text
  refine ⟨rfl, ?_, ?_⟩
  · rw [h]
    simp only [llmFragments]
  · rw [h]
    simp only [llmFragments]
    have e0 : ∀ fi fp lg, apologyFinalToken (Frame.text "" true fi fp lg) = false :=
      fun _ _ _ => rfl
    by_cases h1 : detect_language_switch text s.language ≠ s.language ∧
        detect_language_switch text s.language ∈ SUPPORTED_LANGUAGES <;>
      by_cases h2 : pyStripStr (routeResolve registered s.active_agent
          (pyStripStr (String.join (fs ++ [streamApology])))).1 ≠ "" <;>
        simp [h1, h2, e0, apologyFinalToken, Bool.and_false,
          List.countP_cons, List.countP_append, List.countP_nil] <;>
          exact ⟨by decide, by decide⟩

/-- C2: the routing resolver honors at most the first `#route_to:<word>`
marker. With no marker match anywhere (first conjunct) the text is returned
unchanged with no agent. When the first marker match captures group `g`
(second conjunct — the decomposition pins the first match and the maximal
word run), the spoken text is the response with every marker match removed
and stripped, whether or not `g` resolves; the new agent is `g` exactly when
`g` is registered. -/
theorem c2_route_marker_resolution (registered : List String) (agent : String)
    (t : String) :
    ((∀ i, markerAt t.toList i = false) →
      routeResolve registered agent t = (t, none, [("assistant", t)])) ∧
    (∀ pre g post, t.toList = pre ++ markerL ++ g ++ post → g ≠ [] →
      (∀ c ∈ g, isWordChar c = true) →
      (∀ d, post.head? = some d → isWordChar d = false) →
      (∀ j, j < pre.length → markerAt t.toList j = false) →
      ((String.mk g ∈ registered →
          (routeResolve registered agent t).1 =
            pyStripStr (String.mk (stripMarkers t.toList)) ∧
          (routeResolve registered agent t).2.1 = some (String.mk g)) ∧
       (String.mk g ∉ registered →
          (routeResolve registered agent t).1 =
            pyStripStr (String.mk (stripMarkers t.toList)) ∧
          (routeResolve registered agent t).2.1 = none))) := by
  constructor
  · intro hnone
    have hf : findMarkerGroup t.toList = none :=
      (findMarkerGroup_eq_none_iff _).mpr hnone
    unfold routeResolve
    rw [hf]
  · intro pre g post hdec hg hgw hpost hfirst
    have hf : findMarkerGroup t.toList = some g := by
      rw [hdec]
      refine findMarkerGroup_first pre g post hg hgw hpost ?_
      intro j hj
      rw [← hdec]
      exact hfirst j hj
    constructor
    · intro hmem
      unfold routeResolve
      rw [hf]
      simp [hmem]
    · intro hmem
      unfold routeResolve
      rw [hf]
      simp [hmem]

/-- Witness for C2: a response with two markers resolves to the first one
("Max", registered), with both markers stripped from the spoken text. -/
theorem c2_witness :
    (routeResolve defaultAgents "Olli" "Sure. #route_to:Max #route_to:Io").1 =
      pyStripStr (String.mk (stripMarkers "Sure. #route_to:Max #route_to:Io".toList)) ∧
    (routeResolve defaultAgents "Olli" "Sure. #route_to:Max #route_to:Io").2.1 =
      some "Max" := by
  have h := ((c2_route_marker_resolution defaultAgents "Olli"
      "Sure. #route_to:Max #route_to:Io").2
    "Sure. ".toList "Max".toList " #route_to:Io".toList
    (by decide) (by decide) (by decide) (by decide) (by decide)).1 (by decide)
  exact h

/-- Counterexample for C1 as stated: for the 3-fragment stream
`["Hel", "lo ", "world"]` the turn does not emit three `partial=true` tokens;
it emits exactly one, carrying the whole concatenation `"Hello world"`,
because `process_complete_input` collects the stream into a buffer before
inspecting it for a routing marker. -/
theorem c1_counterexample :
    ¬ ((process_complete_input defaultAgents none (.ok ["Hel", "lo ", "world"])
          demoSession "hi there").frames.countP nonFinalToken = 3) ∧
    (process_complete_input defaultAgents none (.ok ["Hel", "lo ", "world"])
        demoSession "hi there").frames =
      [Frame.text "Hello world" false false false (some "pt-BR"),
       Frame.text "" true false false (some "pt-BR")] := by
  constructor
  · decide
  · decide

/-- Counterexample for C3 as stated: when the provider stream fails after
yielding `"Hel"`, no outbound token carries a fixed apology with `last=true`;
the apology is appended to the accumulated text of the single `last=false`
content token, and the turn is closed by the usual empty `last=true`
marker. -/
theorem c3_counterexample :
    ((process_complete_input defaultAgents none (.failAfter ["Hel"])
        demoSession "hi there").frames.countP apologyFinalToken = 0) ∧
    (process_complete_input defaultAgents none (.failAfter ["Hel"])
        demoSession "hi there").frames =
      [Frame.text "HelDesculpe, ocorreu um erro." false false false (some "pt-BR"),
       Frame.text "" true false false (some "pt-BR")] := by
  constructor
  · decide
  · decide

/-- C5 (amended): the three flags are copied from the most recent prompt
event (absent fields defaulting to `True`) into `latest_prompt_flags`, and
every outbound content token of the turn started by that prompt echoes the
stored `interruptible` and `preemptible` values; the token's `last` field is
not the stored `last` flag but the negation of the `partial` argument — it is
`true` only on the empty final marker. -/
theorem c5_flags_copied_and_echoed (registered : List String) (br : Option String)
    (stream : StreamResult) (s : Session) (vp : Option String)
    (i p l : Option Bool) (f : Frame)
    (hf : f ∈ (handle_prompt registered br stream s vp i p l).frames)
    (tok : String) (lf fi fp : Bool) (lg : Option String)
    (heq : f = Frame.text tok lf fi fp lg) :
    (handle_prompt registered br stream s vp i p l).session.latest_prompt_flags =
      { interruptible := i.getD true, preemptible := p.getD true, last := l.getD true } ∧
    fi = i.getD true ∧ fp = p.getD true ∧ (lf = true → tok = "") := by
  unfold handle_prompt at hf ⊢
  dsimp only at hf ⊢
  by_cases hne : pyStripStr (vp.getD "") ≠ ""
  · rw [if_pos hne] at hf ⊢
    refine ⟨process_session_flags registered br stream _ _, ?_⟩
    exact process_frames_shape registered br stream
      { s with latest_prompt_flags :=
          { interruptible := i.getD true, preemptible := p.getD true, last := l.getD true } }
      (vp.getD "") f hf tok lf fi fp lg heq
  · simp only [hne] at hf
    exact absurd hf (by simp)

/-- Witness for C5 (amended): the turn's content token carries the stored
`interruptible` and `preemptible` values and is not a final marker. -/
theorem c5_witness :
    (handle_prompt defaultAgents none (.ok ["x"]) demoSession (some "hi")
        (some false) (some true) (some true)).session.latest_prompt_flags =
      { interruptible := false, preemptible := true, last := true } ∧
    false = (some false : Option Bool).getD true := by
  have h := c5_flags_copied_and_echoed defaultAgents none (.ok ["x"]) demoSession
    (some "hi") (some false) (some true) (some true)
    (Frame.text "x" false false true (some "pt-BR")) (by decide)
    "x" false false true (some "pt-BR") rfl
  exact ⟨h.1, h.2.1⟩

/-- C6: when the detector returns a tag different from the session language,
the language is updated, the broadcast sink is notified first (regardless of
support-set membership), and an outbound language-change frame is emitted if
and only if the new tag is in the supported set — placed before every
response token of the turn (everything after it is a text frame). -/
theorem c6_language_switch_emission (registered : List String)
    (br : Option String) (stream : StreamResult) (s : Session) (text : String)
    (h : detect_language_switch text s.language ≠ s.language) :
    (process_complete_input registered br stream s text).session.language =
      detect_language_switch text s.language ∧
    (process_complete_input registered br stream s text).bcasts.head? =
      some (Broadcast.languageSwitch s.language (detect_language_switch text s.language)) ∧
    ∃ rest : List Frame,
      (process_complete_input registered br stream s text).frames =
        (if detect_language_switch text s.language ∈ SUPPORTED_LANGUAGES then
          [Frame.language (detect_language_switch text s.language)
            (detect_language_switch text s.language)]
        else []) ++ rest ∧
      ∀ f ∈ rest, ∃ tok lf fi fp lg, f = Frame.text tok lf fi fp lg := by
  have h' : ¬ (detect_language_switch text s.language = s.language) := h
  refine And.intro ?_ (And.intro ?_ ?_)
  · unfold process_complete_input
    cases hbk : (if truthy s.customer_phone then br else none) <;> simp [hbk, h']
  · unfold process_complete_input
    cases hbk : (if truthy s.customer_phone then br else none) <;> simp [hbk, h']
  · unfold process_complete_input
    cases hbk : (if truthy s.customer_phone then br else none) with
    | none =>
      simp only [hbk, ne_eq, h', not_false_eq_true, true_and, if_true, ite_true]
      rw [List.append_assoc]
      refine ⟨_, rfl, ?_⟩
      intro f hf
      simp only [List.mem_append, List.mem_singleton, List.mem_ite_nil_right,
        List.mem_ite_nil_left, send_response] at hf
      rcases hf with ⟨-, hf⟩ | hf <;> exact ⟨_, _, _, _, _, hf⟩
    | some r =>
      simp only [hbk, ne_eq, h', not_false_eq_true, true_and, if_true, ite_true]
      rw [List.append_assoc]
      refine ⟨_, rfl, ?_⟩
      intro f hf
      simp only [List.mem_append, List.mem_singleton, List.mem_map,
        send_response] at hf
      rcases hf with ⟨w, -, hw⟩ | hf
      · exact ⟨_, _, _, _, _, hw.symm⟩
      · exact ⟨_, _, _, _, _, hf⟩

/-- Witness for C6 at a concrete language switch. -/
theorem c6_witness :
    (process_complete_input defaultAgents none (.ok ["ok"]) demoSession
        "please speak english").session.language = "en-US" ∧
    (process_complete_input defaultAgents none (.ok ["ok"]) demoSession
        "please speak english").bcasts.head? =
      some (Broadcast.languageSwitch "pt-BR" "en-US") := by
  have h := c6_language_switch_emission defaultAgents none (.ok ["ok"]) demoSession
    "please speak english" (by decide)
  refine ⟨?_, ?_⟩
  · rw [h.1]; decide
  · rw [h.2.1]; decide

/-- Counterexample for C5 as stated: with prompt flags
`{interruptible: false, preemptible: true, last: true}` the outbound tokens
of the turn do not echo all three values — the content token is sent with
`last = false` and the final marker with `last = true`, i.e. the frame's
`last` field is the negation of `partial`, not the stored `last` flag. -/
theorem c5_counterexample :
    ¬ ((handle_prompt defaultAgents none (.ok ["x"]) demoSession (some "hi")
          (some false) (some true) (some true)).frames.all
        (fun f => match f with
          | .text _ lastFlag i p _ => (i = false && p = true) && lastFlag = true
          | .language _ _ => true) = true) := by decide

end Voice

